import Mathlib

/-!
Verification of the JzSE-go cross-region synchronization core.

This file gives a shallow embedding of the Go sources of JzSE-go
(vector-clock comparison, conflict detection/resolution, the global
metadata manager, the coordinator sync engine, the region change queue
and sync agent error handler, and the region-registry health check) and
proves/refutes the specified properties about them.

Modelling conventions:
- `time.Time` / `time.Duration` values are `Int` nanoseconds
  (`t1.After(t2)` is `t2 < t1`).
- Go maps are association lists with first-match lookup; a nil Go map
  is `Option` `none`, a non-nil map is `some` of its binding list.
- Go `int` / `int64` are `Int`, `uint64` counters are `Nat`.
- A method that mutates its receiver returns the updated value; a
  method that can also return an `error` returns an `Option Err`
  paired with the (updated or untouched) receiver.
- Fields irrelevant to every claim and not representable exactly
  (the registry's `float64` load level and geo coordinates, loggers,
  mutexes, channels) are omitted.
-/

/-- Sentinel errors from internal/common/errors used by the sync core. -/
inductive Err where
  | ErrNotFound
  | ErrAlreadyExists
  | ErrConflict
  | ErrQueueFull
deriving DecidableEq, Repr

/-- A non-nil Go vector clock `map[string]uint64`: a list of bindings. -/
abbrev VC := List (String × Nat)

/-- First-match association-list lookup, mirroring Go map lookup. -/
def assocGet {β : Type} : List (String × β) → String → Option β
  | [], _ => none
  | (k', v) :: rest, k => if k' = k then some v else assocGet rest k

/-- Go map write `s[k] = v`: replace the binding of `k`, or append it. -/
def assocInsert {β : Type} : List (String × β) → String → β → List (String × β)
  | [], k, v => [(k, v)]
  | (k', v') :: rest, k, v =>
      if k' = k then (k, v) :: rest else (k', v') :: assocInsert rest k v

/-- Go map read `m[k]` on a `map[string]uint64`: missing keys read 0. -/
def vcGet (vc : VC) (k : String) : Nat := (assocGet vc k).getD 0

/-- ClockRelation from internal/region/metadata (Go iota constants). -/
inductive ClockRelation where
  | ClockBefore
  | ClockAfter
  | ClockEqual
  | ClockConcurrent
deriving DecidableEq, Repr

/-- The `lessThan` flag computed by the key loop of Go `CompareClock`:
some key of either clock has a strictly smaller counter in `m`. -/
def lessThanFlag (m o : VC) : Bool :=
  (m.map Prod.fst ++ o.map Prod.fst).any fun k => decide (vcGet m k < vcGet o k)

/-- The `greaterThan` flag of Go `CompareClock`: some key of either
clock has a strictly greater counter in `m`. -/
def greaterThanFlag (m o : VC) : Bool :=
  (m.map Prod.fst ++ o.map Prod.fst).any fun k => decide (vcGet o k < vcGet m k)

/-- The non-nil branch of Go `CompareClock`: both clocks are non-nil
maps, flags decide the relation exactly as the Go `switch` does. -/
def compareMaps (m o : VC) : ClockRelation :=
  if lessThanFlag m o && greaterThanFlag m o then .ClockConcurrent
  else if lessThanFlag m o then .ClockBefore
  else if greaterThanFlag m o then .ClockAfter
  else .ClockEqual

/-- Go `FileMetadata.CompareClock` including its nil-map special cases. -/
def compareClock : Option VC → Option VC → ClockRelation
  | none, none => .ClockEqual
  | none, some _ => .ClockBefore
  | some _, none => .ClockAfter
  | some a, some b => compareMaps a b

/-- Exchange of the roles Before/After, fixing Equal and Concurrent. -/
def flipRel : ClockRelation → ClockRelation
  | .ClockBefore => .ClockAfter
  | .ClockAfter => .ClockBefore
  | .ClockEqual => .ClockEqual
  | .ClockConcurrent => .ClockConcurrent

theorem any_append_comm {α : Type} (l₁ l₂ : List α) (p : α → Bool) :
    (l₁ ++ l₂).any p = (l₂ ++ l₁).any p := by
  simp [List.any_append, Bool.or_comm]

theorem lessThanFlag_swap (m o : VC) : lessThanFlag o m = greaterThanFlag m o := by
  unfold lessThanFlag greaterThanFlag
  exact any_append_comm _ _ _

theorem compareMaps_flip (m o : VC) : compareMaps o m = flipRel (compareMaps m o) := by
  unfold compareMaps
  rw [lessThanFlag_swap m o, (lessThanFlag_swap o m).symm]
  cases hL : lessThanFlag m o <;> cases hG : greaterThanFlag m o <;>
    simp [hL, hG, flipRel]

theorem compareClock_flip (x y : Option VC) :
    compareClock y x = flipRel (compareClock x y) := by
  cases x <;> cases y
  · rfl
  · rfl
  · rfl
  · exact compareMaps_flip _ _

/-- FileMetadata from internal/region/metadata/model.go. Times are
nanosecond `Int`s; `LocalState`/`SyncState` are Go string types. -/
structure FileMetadata where
  ID : String
  Name : String
  Path : String
  Size : Int
  ContentHash : String
  MimeType : String
  Version : Int
  VectorClock : Option VC
  OwnerID : String
  CreatedAt : Int
  UpdatedAt : Int
  CreatedBy : String
  UpdatedBy : String
  OriginRegion : String
  LocalState : String
  SyncState : String
  CustomMeta : Option (List (String × String))
deriving DecidableEq, Repr

/-- Go `FileMetadata.CompareClock`: compares the receiver's clock with
another (possibly nil) clock map. -/
def FileMetadata.CompareClock (m : FileMetadata) (other : Option VC) : ClockRelation :=
  compareClock m.VectorClock other

/-- RegionLocation from internal/coordinator/metadata. -/
structure RegionLocation where
  RegionID : String
  State : String
  LastSyncAt : Int
deriving DecidableEq, Repr

/-- GlobalFileMetadata from internal/coordinator/metadata: embeds
FileMetadata (Go struct embedding) plus replication fields. -/
structure GlobalFileMetadata extends FileMetadata where
  Locations : List RegionLocation
  Primary : String
  Replicas : Int
deriving DecidableEq, Repr

/-- Promoted method of the embedded FileMetadata, as Go promotes it. -/
def GlobalFileMetadata.CompareClock (g : GlobalFileMetadata) (other : Option VC) :
    ClockRelation :=
  g.toFileMetadata.CompareClock other

/-- C10: for all vector clocks A and B (including nil clocks), Compare
is antisymmetric on Before/After and symmetric on Equal/Concurrent:
A.Compare(B) = Before iff B.Compare(A) = After, and conversely; the
Equal and Concurrent verdicts agree in both directions. -/
theorem c10_compare_symmetry (a b : FileMetadata) :
    (a.CompareClock b.VectorClock = .ClockBefore ↔
       b.CompareClock a.VectorClock = .ClockAfter) ∧
    (a.CompareClock b.VectorClock = .ClockAfter ↔
       b.CompareClock a.VectorClock = .ClockBefore) ∧
    (a.CompareClock b.VectorClock = .ClockEqual ↔
       b.CompareClock a.VectorClock = .ClockEqual) ∧
    (a.CompareClock b.VectorClock = .ClockConcurrent ↔
       b.CompareClock a.VectorClock = .ClockConcurrent) := by
  unfold FileMetadata.CompareClock
  rw [compareClock_flip a.VectorClock b.VectorClock]
  cases compareClock a.VectorClock b.VectorClock <;> simp [flipRel]

/-- Strategy constants from internal/coordinator/conflict (Go typed strings). -/
def StrategyLWW : String := "last_writer_wins"

def StrategyMerge : String := "merge"

def StrategyManual : String := "manual"

def StrategyFork : String := "fork"

/-- Conflict from internal/coordinator/conflict: pairs two concurrent
versions of one file with a detection time and a status string. -/
structure Conflict where
  ID : String
  FileID : String
  LocalVersion : GlobalFileMetadata
  RemoteVersion : GlobalFileMetadata
  DetectedAt : Int
  Status : String
deriving DecidableEq, Repr

/-- Resolution from internal/coordinator/conflict. `Result` and
`Rejected` are Go pointers, hence `Option`. -/
structure Resolution where
  ConflictID : String
  Strategy : String
  Result : Option GlobalFileMetadata
  Rejected : Option GlobalFileMetadata
  ResolvedAt : Int
deriving DecidableEq, Repr

/-- Resolver state: only the configured default strategy matters. -/
structure Resolver where
  defaultStrategy : String
deriving DecidableEq, Repr

/-- Go `generateConflictID` formats the current time; we take the time
as an explicit parameter and render it. -/
def generateConflictID (now : Int) : String := "conflict-" ++ toString now

/-- Go `Resolver.Detect`: a conflict is produced exactly when the two
clocks compare Concurrent. -/
def Resolver.Detect (r : Resolver) (localVer remoteVer : GlobalFileMetadata)
    (now : Int) : Option Conflict :=
  let relation := localVer.CompareClock remoteVer.VectorClock
  if relation ≠ ClockRelation.ClockConcurrent then none
  else some
    { ID := generateConflictID now
      FileID := localVer.ID
      LocalVersion := localVer
      RemoteVersion := remoteVer
      DetectedAt := now
      Status := "pending" }

/-- Go `Resolver.resolveLastWriterWins`: local wins only when its
`UpdatedAt` is strictly after remote's; otherwise remote wins. -/
def Resolver.resolveLastWriterWins (c : Conflict) :
    GlobalFileMetadata × GlobalFileMetadata :=
  if c.RemoteVersion.UpdatedAt < c.LocalVersion.UpdatedAt then
    (c.LocalVersion, c.RemoteVersion)
  else
    (c.RemoteVersion, c.LocalVersion)

/-- Go `Resolver.resolveFork`: copies the remote version and suffixes
its path and name with ".conflict". -/
def Resolver.resolveFork (c : Conflict) : GlobalFileMetadata :=
  { c.RemoteVersion with
      Path := c.RemoteVersion.Path ++ ".conflict"
      Name := c.RemoteVersion.Name ++ ".conflict" }

/-- Go `Resolver.Resolve`: empty strategy falls back to the default;
the switch handles LWW and Fork, and every other strategy (merge,
manual included) falls to the LWW branch; the conflict's status is
unconditionally set to "resolved". Returns the resolution and the
updated conflict. -/
def Resolver.Resolve (r : Resolver) (c : Conflict) (strategy : String)
    (now : Int) : Resolution × Conflict :=
  let strat := if strategy = "" then r.defaultStrategy else strategy
  let pair : Option GlobalFileMetadata × Option GlobalFileMetadata :=
    if strat = StrategyLWW then
      let wl := Resolver.resolveLastWriterWins c
      (some wl.1, some wl.2)
    else if strat = StrategyFork then
      (some (Resolver.resolveFork c), none)
    else
      let wl := Resolver.resolveLastWriterWins c
      (some wl.1, some wl.2)
  ({ ConflictID := c.ID
     Strategy := strat
     Result := pair.1
     Rejected := pair.2
     ResolvedAt := now },
   { c with Status := "resolved" })

/-- Sample FileMetadata builder for concrete test inputs. -/
def mkFM (id name path : String) (clock : Option VC) (updatedAt : Int) : FileMetadata :=
  { ID := id, Name := name, Path := path, Size := 0, ContentHash := ""
    MimeType := "", Version := 1, VectorClock := clock, OwnerID := ""
    CreatedAt := 0, UpdatedAt := updatedAt, CreatedBy := "", UpdatedBy := ""
    OriginRegion := "", LocalState := "present", SyncState := "synced"
    CustomMeta := none }

/-- Sample GlobalFileMetadata builder for concrete test inputs. -/
def mkGFM (id name path : String) (clock : Option VC) (updatedAt : Int) :
    GlobalFileMetadata :=
  { toFileMetadata := mkFM id name path clock updatedAt
    Locations := [], Primary := "", Replicas := 0 }

/-- Unfolding of `Resolve` at the LWW strategy (pure computation). -/
theorem resolve_lww_eq (r : Resolver) (c : Conflict) (now : Int) :
    r.Resolve c StrategyLWW now =
      ({ ConflictID := c.ID
         Strategy := StrategyLWW
         Result := some (Resolver.resolveLastWriterWins c).1
         Rejected := some (Resolver.resolveLastWriterWins c).2
         ResolvedAt := now },
       { c with Status := "resolved" }) := rfl

/-- C3: Detect returns a pending conflict pairing the two versions iff
the clocks compare Concurrent; any other relation yields no conflict,
whatever the contents. -/
theorem c3_detect_iff_concurrent (r : Resolver)
    (localVer remoteVer : GlobalFileMetadata) (now : Int) :
    ((∃ c, r.Detect localVer remoteVer now = some c ∧
        c.Status = "pending" ∧ c.LocalVersion = localVer ∧
        c.RemoteVersion = remoteVer ∧ c.FileID = localVer.ID) ↔
      localVer.CompareClock remoteVer.VectorClock = ClockRelation.ClockConcurrent) ∧
    (localVer.CompareClock remoteVer.VectorClock ≠ ClockRelation.ClockConcurrent →
      r.Detect localVer remoteVer now = none) := by
  constructor
  · constructor
    · rintro ⟨c, hc, -⟩
      by_contra h
      simp [Resolver.Detect, h] at hc
    · intro h
      refine ⟨{ ID := generateConflictID now, FileID := localVer.ID,
                LocalVersion := localVer, RemoteVersion := remoteVer,
                DetectedAt := now, Status := "pending" },
              ?_, rfl, rfl, rfl, rfl⟩
      simp [Resolver.Detect, h]
  · intro h
    simp [Resolver.Detect, h]

/-- Causally ordered pair of versions: a's clock is dominated by b's. -/
def gfmBefore1 : GlobalFileMetadata := mkGFM "file-0" "a.txt" "/a" (some [("a", 1)]) 0

/-- Causally ordered pair of versions: dominates `gfmBefore1`. -/
def gfmBefore2 : GlobalFileMetadata := mkGFM "file-0" "b.txt" "/a" (some [("a", 2)]) 0

theorem c3_witness :
    gfmBefore1.CompareClock gfmBefore2.VectorClock ≠ ClockRelation.ClockConcurrent ∧
    (Resolver.mk StrategyLWW).Detect gfmBefore1 gfmBefore2 0 = none :=
  ⟨by decide,
   (c3_detect_iff_concurrent (Resolver.mk StrategyLWW) gfmBefore1 gfmBefore2 0).2
     (by decide)⟩

/-- Local side of an LWW tie: same UpdatedAt as the remote side. -/
def lwwTieLocal : GlobalFileMetadata :=
  mkGFM "file-1" "local.txt" "/f" (some [("a", 2), ("b", 1)]) 1000

/-- Remote side of an LWW tie: same UpdatedAt as the local side. -/
def lwwTieRemote : GlobalFileMetadata :=
  mkGFM "file-1" "remote.txt" "/f" (some [("a", 1), ("b", 2)]) 1000

/-- A pending conflict whose two versions have equal UpdatedAt. -/
def lwwTieConflict : Conflict :=
  { ID := "c-tie", FileID := "file-1", LocalVersion := lwwTieLocal
    RemoteVersion := lwwTieRemote, DetectedAt := 0, Status := "pending" }

/-- C1 counterexample: on an exact UpdatedAt tie the code's LWW picks
the Remote version as the winner, not the Local one as claimed. -/
theorem c1_counterexample :
    lwwTieConflict.LocalVersion.UpdatedAt = lwwTieConflict.RemoteVersion.UpdatedAt ∧
    ((Resolver.mk StrategyLWW).Resolve lwwTieConflict StrategyLWW 0).1.Result ≠
      some lwwTieConflict.LocalVersion ∧
    ((Resolver.mk StrategyLWW).Resolve lwwTieConflict StrategyLWW 0).1.Result =
      some lwwTieConflict.RemoteVersion := by
  decide

/-- C1 (amended): LWW resolution returns the version with the strictly
later UpdatedAt as Result and the other as Rejected; on an exact tie
the second comparison operand (the Remote version) wins; after Resolve
the conflict's status is "resolved". -/
theorem c1_lww_amended (r : Resolver) (c : Conflict) (now : Int) :
    (c.RemoteVersion.UpdatedAt < c.LocalVersion.UpdatedAt →
      (r.Resolve c StrategyLWW now).1.Result = some c.LocalVersion ∧
      (r.Resolve c StrategyLWW now).1.Rejected = some c.RemoteVersion) ∧
    (c.LocalVersion.UpdatedAt ≤ c.RemoteVersion.UpdatedAt →
      (r.Resolve c StrategyLWW now).1.Result = some c.RemoteVersion ∧
      (r.Resolve c StrategyLWW now).1.Rejected = some c.LocalVersion) ∧
    (r.Resolve c StrategyLWW now).2.Status = "resolved" := by
  refine ⟨?_, ?_, rfl⟩
  · intro h
    rw [resolve_lww_eq]
    simp [Resolver.resolveLastWriterWins, if_pos h]
  · intro h
    rw [resolve_lww_eq]
    simp [Resolver.resolveLastWriterWins, if_neg (not_lt.mpr h)]

/-- Conflict whose local version is strictly newer. -/
def lwwLocalNewerC : Conflict :=
  { ID := "c-ln", FileID := "file-1"
    LocalVersion := mkGFM "file-1" "l.txt" "/f" (some [("a", 2), ("b", 1)]) 2000
    RemoteVersion := mkGFM "file-1" "r.txt" "/f" (some [("a", 1), ("b", 2)]) 1000
    DetectedAt := 0, Status := "pending" }

/-- Conflict whose remote version is strictly newer (spec's T vs T+1h). -/
def lwwRemoteNewerC : Conflict :=
  { ID := "c-rn", FileID := "file-1"
    LocalVersion := mkGFM "file-1" "l.txt" "/f" (some [("a", 2), ("b", 1)]) 1000
    RemoteVersion := mkGFM "file-1" "r.txt" "/f" (some [("a", 1), ("b", 2)]) 2000
    DetectedAt := 0, Status := "pending" }

theorem c1_witness :
    lwwLocalNewerC.RemoteVersion.UpdatedAt < lwwLocalNewerC.LocalVersion.UpdatedAt ∧
    ((Resolver.mk StrategyLWW).Resolve lwwLocalNewerC StrategyLWW 0).1.Result =
      some lwwLocalNewerC.LocalVersion ∧
    lwwRemoteNewerC.LocalVersion.UpdatedAt ≤ lwwRemoteNewerC.RemoteVersion.UpdatedAt ∧
    ((Resolver.mk StrategyLWW).Resolve lwwRemoteNewerC StrategyLWW 0).1.Result =
      some lwwRemoteNewerC.RemoteVersion ∧
    ((Resolver.mk StrategyLWW).Resolve lwwRemoteNewerC StrategyLWW 0).2.Status =
      "resolved" :=
  ⟨by decide,
   ((c1_lww_amended (Resolver.mk StrategyLWW) lwwLocalNewerC 0).1 (by decide)).1,
   by decide,
   ((c1_lww_amended (Resolver.mk StrategyLWW) lwwRemoteNewerC 0).2.1 (by decide)).1,
   (c1_lww_amended (Resolver.mk StrategyLWW) lwwRemoteNewerC 0).2.2⟩

/-- Local side of the manual-strategy conflict, strictly newer. -/
def manualLocal : GlobalFileMetadata :=
  mkGFM "file-2" "m-local.txt" "/m" (some [("a", 2), ("b", 1)]) 2000

/-- Remote side of the manual-strategy conflict. -/
def manualRemote : GlobalFileMetadata :=
  mkGFM "file-2" "m-remote.txt" "/m" (some [("a", 1), ("b", 2)]) 1000

/-- A pending conflict submitted with the manual strategy. -/
def manualConflict : Conflict :=
  { ID := "c-manual", FileID := "file-2", LocalVersion := manualLocal
    RemoteVersion := manualRemote, DetectedAt := 0, Status := "pending" }

/-- C2: the code at the failing input. Resolving a pending conflict
with the manual strategy falls into the LWW default branch: it yields
an automatic Result (the LWW winner) and sets the status to "resolved",
never "escalated" — contradicting the documented manual behavior. -/
theorem c2_manual_code_behavior :
    ((Resolver.mk StrategyLWW).Resolve manualConflict StrategyManual 0).2.Status =
      "resolved" ∧
    ((Resolver.mk StrategyLWW).Resolve manualConflict StrategyManual 0).2.Status ≠
      "escalated" ∧
    ((Resolver.mk StrategyLWW).Resolve manualConflict StrategyManual 0).1.Result =
      some manualLocal := by
  decide

/-- EtcdManager from internal/coordinator/metadata: the in-memory
store `map[string]*GlobalFileMetadata`. -/
structure EtcdManager where
  store : List (String × GlobalFileMetadata)
deriving DecidableEq, Repr

/-- Go `EtcdManager.Get`. -/
def EtcdManager.Get (m : EtcdManager) (fileID : String) :
    Except Err GlobalFileMetadata :=
  match assocGet m.store fileID with
  | none => .error .ErrNotFound
  | some meta => .ok meta

/-- Go `EtcdManager.Update`: absent id fails not-found; a stored clock
Concurrent with the incoming clock fails conflict; otherwise the
incoming metadata overwrites the stored one. -/
def EtcdManager.Update (m : EtcdManager) (meta : GlobalFileMetadata) :
    Option Err × EtcdManager :=
  match assocGet m.store meta.ID with
  | none => (some .ErrNotFound, m)
  | some existing =>
    if existing.CompareClock meta.VectorClock = ClockRelation.ClockConcurrent then
      (some .ErrConflict, m)
    else
      (none, { m with store := assocInsert m.store meta.ID meta })

/-- Go `EtcdManager.Register`: duplicate id fails already-exists. -/
def EtcdManager.Register (m : EtcdManager) (meta : GlobalFileMetadata) :
    Option Err × EtcdManager :=
  match assocGet m.store meta.ID with
  | some _ => (some .ErrAlreadyExists, m)
  | none => (none, { m with store := assocInsert m.store meta.ID meta })

/-- Go `EtcdManager.Delete`: absent id fails not-found. -/
def EtcdManager.Delete (m : EtcdManager) (fileID : String) :
    Option Err × EtcdManager :=
  match assocGet m.store fileID with
  | none => (some .ErrNotFound, m)
  | some _ =>
      (none, { m with store := m.store.filter fun p => decide (p.1 ≠ fileID) })

/-- C4: an Update whose incoming clock is Concurrent with the stored
clock fails with the conflict error and leaves the manager (hence the
stored metadata) unchanged; an Update for an absent file id fails with
the not-found error and likewise changes nothing. -/
theorem c4_update_rejects (m : EtcdManager) (meta existing : GlobalFileMetadata) :
    (assocGet m.store meta.ID = some existing →
      existing.CompareClock meta.VectorClock = ClockRelation.ClockConcurrent →
      m.Update meta = (some Err.ErrConflict, m)) ∧
    (assocGet m.store meta.ID = none →
      m.Update meta = (some Err.ErrNotFound, m)) := by
  constructor
  · intro h hc
    simp [EtcdManager.Update, h, hc]
  · intro h
    simp [EtcdManager.Update, h]

/-- Metadata stored under id "file-4". -/
def storedGFM : GlobalFileMetadata :=
  mkGFM "file-4" "s.txt" "/s" (some [("a", 2), ("b", 1)]) 0

/-- Incoming metadata for "file-4" with a concurrent clock. -/
def incomingGFM : GlobalFileMetadata :=
  mkGFM "file-4" "i.txt" "/s" (some [("a", 1), ("b", 2)]) 5

/-- Incoming metadata for an id absent from the store. -/
def missingGFM : GlobalFileMetadata :=
  mkGFM "file-9" "x.txt" "/x" (some [("a", 1)]) 5

/-- Manager holding exactly "file-4". -/
def mgr4 : EtcdManager := { store := [("file-4", storedGFM)] }

theorem c4_witness :
    assocGet mgr4.store incomingGFM.ID = some storedGFM ∧
    storedGFM.CompareClock incomingGFM.VectorClock = ClockRelation.ClockConcurrent ∧
    mgr4.Update incomingGFM = (some Err.ErrConflict, mgr4) ∧
    assocGet mgr4.store missingGFM.ID = none ∧
    mgr4.Update missingGFM = (some Err.ErrNotFound, mgr4) :=
  ⟨by decide, by decide,
   (c4_update_rejects mgr4 incomingGFM storedGFM).1 (by decide) (by decide),
   by decide,
   (c4_update_rejects mgr4 missingGFM storedGFM).2 (by decide)⟩

theorem assocGet_insert_self {β : Type} (s : List (String × β)) (k : String) (v : β) :
    assocGet (assocInsert s k v) k = some v := by
  induction s with
  | nil => simp [assocInsert, assocGet]
  | cons p rest ih =>
      by_cases h : p.1 = k
      · simp [assocInsert, assocGet, h]
      · simp [assocInsert, assocGet, h, ih]

namespace CoordSync

/-- ChangeEvent from the coordinator's sync package. The Go field
`Type` is a Lean keyword and is rendered as `EventType`. -/
structure ChangeEvent where
  ID : String
  EventType : String
  FileID : String
  Metadata : GlobalFileMetadata
  VectorClock : Option VC
  Timestamp : Int
  RegionID : String
deriving DecidableEq, Repr

/-- RegionState tracked per connected region by the sync engine. -/
structure RegionState where
  RegionID : String
  LastEventID : String
  LastSyncAt : Int
  PendingEvents : List ChangeEvent
deriving DecidableEq, Repr

/-- EngineConfig of the coordinator sync engine. -/
structure EngineConfig where
  DefaultStrategy : String
  BatchSize : Int
  BroadcastTimeout : Int
deriving DecidableEq, Repr

/-- Engine state: config, the metadata manager, and the region map. -/
structure Engine where
  config : EngineConfig
  metaManager : EtcdManager
  regions : List (String × RegionState)
deriving DecidableEq, Repr

/-- Go `Engine.broadcastChange`: append the event to the pending list
of every registered region except the event's origin region. -/
def Engine.broadcastChange (e : Engine) (event : ChangeEvent) : Engine :=
  { e with regions := e.regions.map fun p =>
      if p.1 = event.RegionID then p
      else (p.1, { p.2 with PendingEvents := p.2.PendingEvents ++ [event] }) }

/-- Go `Engine.HandleChange`: apply the event to the metadata manager
by type (Register/Update/Delete), propagating any error unchanged;
on success broadcast when the strategy is eager. -/
def Engine.HandleChange (e : Engine) (event : ChangeEvent) : Option Err × Engine :=
  match (if event.EventType = "CREATE" then e.metaManager.Register event.Metadata
    else if event.EventType = "UPDATE" then e.metaManager.Update event.Metadata
    else if event.EventType = "DELETE" then e.metaManager.Delete event.FileID
    else (none, e.metaManager)) with
  | (some err, _) => (some err, e)
  | (none, mm) =>
      if e.config.DefaultStrategy = "eager" then
        (none, Engine.broadcastChange { e with metaManager := mm } event)
      else
        (none, { e with metaManager := mm })

/-- Go `Engine.RegisterRegion`. -/
def Engine.RegisterRegion (e : Engine) (regionID : String) (now : Int) : Engine :=
  let st : RegionState :=
    { RegionID := regionID, LastEventID := "", LastSyncAt := now
      PendingEvents := [] }
  { e with regions := assocInsert e.regions regionID st }

/-- Go `Engine.GetPendingChanges`: drain and return a region's pending
list, resetting it and refreshing the last-sync time; an unknown
region yields an empty result and no state change. -/
def Engine.GetPendingChanges (e : Engine) (regionID : String) (now : Int) :
    List ChangeEvent × Engine :=
  match assocGet e.regions regionID with
  | none => ([], e)
  | some st =>
      let st2 : RegionState := { st with PendingEvents := [], LastSyncAt := now }
      (st.PendingEvents, { e with regions := assocInsert e.regions regionID st2 })

/-- C5: with the eager strategy and regions A and B registered, a
successful HandleChange of an event originating at A appends the event
to B's pending list only: B gains exactly one pending event and A
gains none. -/
theorem c5_eager_fanout (e : Engine) (event : ChangeEvent)
    (ra rb : String) (sa sb : RegionState) :
    e.regions = [(ra, sa), (rb, sb)] →
    ra ≠ rb →
    e.config.DefaultStrategy = "eager" →
    event.RegionID = ra →
    (e.HandleChange event).1 = none →
    (e.HandleChange event).2.regions =
      [(ra, sa), (rb, { sb with PendingEvents := sb.PendingEvents ++ [event] })] ∧
    ((e.HandleChange event).2.regions.map fun p => p.2.PendingEvents.length) =
      [sa.PendingEvents.length, sb.PendingEvents.length + 1] := by
  intro hreg hne hstrat hrid hsucc
  have hne' : rb ≠ ra := Ne.symm hne
  unfold Engine.HandleChange at hsucc ⊢
  rcases happl : (if event.EventType = "CREATE" then e.metaManager.Register event.Metadata
      else if event.EventType = "UPDATE" then e.metaManager.Update event.Metadata
      else if event.EventType = "DELETE" then e.metaManager.Delete event.FileID
      else (none, e.metaManager)) with ⟨err, mm⟩
  rw [happl] at hsucc
  cases err with
  | some er => exact Option.noConfusion hsucc
  | none =>
      have hmain : (Engine.broadcastChange { e with metaManager := mm } event).regions =
          [(ra, sa), (rb, { sb with PendingEvents := sb.PendingEvents ++ [event] })] := by
        simp [Engine.broadcastChange, hreg, hrid, hne']
      constructor
      · simp [hstrat, hmain]
      · simp [hstrat, hmain]

end CoordSync

namespace CoordSync

/-- C6: for a registered region, GetPendingChanges returns exactly the
accumulated pending list, resets it to empty while refreshing the
last-sync timestamp, and a second consecutive call returns nothing. -/
theorem c6_get_pending_drains (e : Engine) (regionID : String) (st : RegionState)
    (now now2 : Int) :
    assocGet e.regions regionID = some st →
    (e.GetPendingChanges regionID now).1 = st.PendingEvents ∧
    assocGet (e.GetPendingChanges regionID now).2.regions regionID =
      some { st with PendingEvents := [], LastSyncAt := now } ∧
    ((e.GetPendingChanges regionID now).2.GetPendingChanges regionID now2).1 = [] := by
  intro h
  have h1 : e.GetPendingChanges regionID now = (st.PendingEvents, { e with regions := assocInsert e.regions regionID { st with PendingEvents := [], LastSyncAt := now } }) := by
    simp [Engine.GetPendingChanges, h]
  refine ⟨by rw [h1], by rw [h1]; exact assocGet_insert_self _ _ _, ?_⟩
  rw [h1]
  simp [Engine.GetPendingChanges, assocGet_insert_self]

/-- Fresh region state for region-a as RegisterRegion creates it. -/
def stA0 : RegionState :=
  { RegionID := "region-a", LastEventID := "", LastSyncAt := 0, PendingEvents := [] }

/-- Fresh region state for region-b as RegisterRegion creates it. -/
def stB0 : RegionState :=
  { RegionID := "region-b", LastEventID := "", LastSyncAt := 0, PendingEvents := [] }

/-- Eager-strategy engine with regions a and b registered. -/
def engineAB : Engine :=
  (Engine.RegisterRegion
    (Engine.RegisterRegion
      { config := { DefaultStrategy := "eager", BatchSize := 10, BroadcastTimeout := 0 }
        metaManager := { store := [] }
        regions := [] }
      "region-a" 0)
    "region-b" 0)

/-- A CREATE event originating at region-a. -/
def eventA : ChangeEvent :=
  { ID := "ev-1", EventType := "CREATE", FileID := "file-5"
    Metadata := mkGFM "file-5" "n.txt" "/n" (some [("region-a", 1)]) 0
    VectorClock := some [("region-a", 1)], Timestamp := 0, RegionID := "region-a" }

theorem c5_witness :
    engineAB.regions = [("region-a", stA0), ("region-b", stB0)] ∧
    "region-a" ≠ "region-b" ∧
    engineAB.config.DefaultStrategy = "eager" ∧
    eventA.RegionID = "region-a" ∧
    (engineAB.HandleChange eventA).1 = none ∧
    (engineAB.HandleChange eventA).2.regions =
      [("region-a", stA0),
       ("region-b", { stB0 with PendingEvents := stB0.PendingEvents ++ [eventA] })] :=
  ⟨by decide, by decide, rfl, rfl, by decide,
   (c5_eager_fanout engineAB eventA "region-a" "region-b" stA0 stB0
     (by decide) (by decide) rfl rfl (by decide)).1⟩

/-- An UPDATE event pending for region-c. -/
def evC : ChangeEvent :=
  { ID := "ev-c", EventType := "UPDATE", FileID := "file-6"
    Metadata := mkGFM "file-6" "c.txt" "/c" (some [("region-c", 1)]) 0
    VectorClock := some [("region-c", 1)], Timestamp := 0, RegionID := "region-c" }

/-- Region state of region-c holding one pending event. -/
def stC : RegionState :=
  { RegionID := "region-c", LastEventID := "", LastSyncAt := 0, PendingEvents := [evC] }

/-- Lazy-strategy engine with region-c holding one pending event. -/
def engineC : Engine :=
  { config := { DefaultStrategy := "lazy", BatchSize := 10, BroadcastTimeout := 0 }
    metaManager := { store := [] }
    regions := [("region-c", stC)] }

theorem c6_witness :
    assocGet engineC.regions "region-c" = some stC ∧
    (engineC.GetPendingChanges "region-c" 7).1 = [evC] ∧
    ((engineC.GetPendingChanges "region-c" 7).2.GetPendingChanges "region-c" 9).1 = [] :=
  ⟨by decide,
   (c6_get_pending_drains engineC "region-c" stC 7 9 (by decide)).1,
   (c6_get_pending_drains engineC "region-c" stC 7 9 (by decide)).2.2⟩

end CoordSync

namespace RegionSync

/-- ChangeEvent from internal/region/sync/agent.go. The Go field
`Type` is a Lean keyword and is rendered as `EventType`; `Attempts`
is the Go `int` retry counter. -/
structure ChangeEvent where
  ID : String
  EventType : String
  FileID : String
  Metadata : FileMetadata
  VectorClock : Option VC
  Timestamp : Int
  RegionID : String
  Attempts : Int
deriving DecidableEq, Repr

/-- ChangeQueue from internal/region/sync/queue.go: items plus the
fixed capacity. -/
structure ChangeQueue where
  items : List ChangeEvent
  maxSize : Int
deriving DecidableEq, Repr

/-- Go `NewChangeQueue`. -/
def NewChangeQueue (maxSize : Int) : ChangeQueue := { items := [], maxSize := maxSize }

/-- Go `ChangeQueue.Push`: fails with the queue-full error when the
queue already holds `maxSize` or more items, leaving it unchanged;
otherwise appends. The pair carries the error and the (possibly
updated) queue. -/
def ChangeQueue.Push (q : ChangeQueue) (event : ChangeEvent) :
    Option Err × ChangeQueue :=
  if (q.items.length : Int) ≥ q.maxSize then (some .ErrQueueFull, q)
  else (none, { q with items := q.items ++ [event] })

/-- Go `ChangeQueue.Pop`: removes and returns the oldest item, or nil
on an empty queue. -/
def ChangeQueue.Pop (q : ChangeQueue) : Option ChangeEvent × ChangeQueue :=
  match q.items with
  | [] => (none, q)
  | x :: rest => (some x, { q with items := rest })

/-- C7: Push fails with queue-full exactly when the queue holds at
least `maxSize` elements and leaves the queue unchanged in that case;
at a full queue of capacity at least one, Push fails, after one Pop a
single Push succeeds (appending), and the next Push fails again. -/
theorem c7_push_capacity (q : ChangeQueue) (ev ev2 : ChangeEvent) :
    ((q.Push ev).1 = some Err.ErrQueueFull ↔ q.maxSize ≤ (q.items.length : Int)) ∧
    (q.maxSize ≤ (q.items.length : Int) → (q.Push ev).2 = q) ∧
    ((q.items.length : Int) = q.maxSize → 1 ≤ q.maxSize →
      (q.Push ev).1 = some Err.ErrQueueFull ∧
      ((q.Pop.2).Push ev).1 = none ∧
      ((q.Pop.2).Push ev).2.items = q.Pop.2.items ++ [ev] ∧
      ((((q.Pop.2).Push ev).2).Push ev2).1 = some Err.ErrQueueFull) := by
  by_cases hc : (q.items.length : Int) ≥ q.maxSize
  · refine ⟨by simp [ChangeQueue.Push, hc], fun _ => by simp [ChangeQueue.Push, hc], ?_⟩
    intro heq hpos
    cases hq : q.items with
    | nil =>
        exfalso
        rw [hq] at heq
        simp at heq
        omega
    | cons x rest =>
        have hlen2 : (rest.length : Int) + 1 = q.maxSize := by
          rw [← heq, hq]
          simp
        have hpop : q.Pop = (some x, { q with items := rest }) := by
          simp [ChangeQueue.Pop, hq]
        rw [hpop]
        have hlt : ¬ ((rest.length : Int) ≥ q.maxSize) := by omega
        have hcond : q.maxSize ≤ (rest.length : Int) + 1 := by omega
        refine ⟨by simp [ChangeQueue.Push, hc], ?_, ?_, ?_⟩
        · simp [ChangeQueue.Push, hlt]
        · simp [ChangeQueue.Push, hlt]
        · simp [ChangeQueue.Push, hlt, hcond]
  · refine ⟨by simp [ChangeQueue.Push, hc], fun h => absurd h hc, ?_⟩
    intro heq hpos
    exact absurd (le_of_eq heq.symm) hc

/-- Region-side sample event builder. -/
def mkREv (id : String) (attempts : Int) : ChangeEvent :=
  { ID := id, EventType := "CREATE", FileID := "f"
    Metadata := mkFM "f" "n" "/p" none 0
    VectorClock := none, Timestamp := 0, RegionID := "r", Attempts := attempts }

/-- A queue of capacity 2 holding 2 items (full). -/
def qFull : ChangeQueue := { items := [mkREv "e1" 0, mkREv "e2" 0], maxSize := 2 }

theorem c7_witness :
    (qFull.items.length : Int) = qFull.maxSize ∧ 1 ≤ qFull.maxSize ∧
    (qFull.Push (mkREv "e3" 0)).1 = some Err.ErrQueueFull ∧
    ((qFull.Pop.2).Push (mkREv "e3" 0)).1 = none ∧
    ((((qFull.Pop.2).Push (mkREv "e3" 0)).2).Push (mkREv "e4" 0)).1 =
      some Err.ErrQueueFull :=
  ⟨by decide, by decide,
   ((c7_push_capacity qFull (mkREv "e3" 0) (mkREv "e4" 0)).2.2 (by decide) (by decide)).1,
   ((c7_push_capacity qFull (mkREv "e3" 0) (mkREv "e4" 0)).2.2 (by decide) (by decide)).2.1,
   ((c7_push_capacity qFull (mkREv "e3" 0) (mkREv "e4" 0)).2.2 (by decide) (by decide)).2.2.2⟩

end RegionSync

namespace RegionSync

/-- AgentConfig from internal/region/sync/agent.go (durations as Int). -/
structure AgentConfig where
  RegionID : String
  Mode : String
  BatchSize : Int
  BatchInterval : Int
  RetryInterval : Int
  MaxRetries : Int
deriving DecidableEq, Repr

/-- Agent state relevant to the claims: its config and its queue. -/
structure Agent where
  config : AgentConfig
  queue : ChangeQueue
deriving DecidableEq, Repr

/-- Go `NewAgent`: the agent's queue always has capacity 10000. -/
def NewAgent (cfg : AgentConfig) : Agent :=
  { config := cfg, queue := NewChangeQueue 10000 }

/-- Go `Agent.handleSyncError`: increment the event's Attempts; when
still under MaxRetries, re-push it onto the agent's queue discarding
any push error (the Go code ignores it); otherwise keep the queue and
emit the max-retries drop report. Returns the updated agent, the
incremented event, and whether the drop report was emitted. -/
def Agent.handleSyncError (a : Agent) (event : ChangeEvent) :
    Agent × ChangeEvent × Bool :=
  let ev : ChangeEvent := { event with Attempts := event.Attempts + 1 }
  if ev.Attempts < a.config.MaxRetries then
    ({ a with queue := (a.queue.Push ev).2 }, ev, false)
  else
    (a, ev, true)

/-- C8 (amended): handleSyncError increments Attempts by one; when the
incremented Attempts is below MaxRetries and the queue is below
capacity, the event is re-enqueued (appended) without any drop report;
when the incremented Attempts is below MaxRetries but the queue is
full, the re-enqueue fails and the event is silently lost (queue
unchanged, no report); when Attempts reaches MaxRetries the event is
not re-enqueued and the drop is reported. -/
theorem c8_retry_amended (a : Agent) (event : ChangeEvent) :
    ((a.handleSyncError event).2.1.Attempts = event.Attempts + 1) ∧
    (event.Attempts + 1 < a.config.MaxRetries →
      (a.queue.items.length : Int) < a.queue.maxSize →
      (a.handleSyncError event).1.queue.items =
        a.queue.items ++ [(a.handleSyncError event).2.1] ∧
      (a.handleSyncError event).2.2 = false) ∧
    (event.Attempts + 1 < a.config.MaxRetries →
      a.queue.maxSize ≤ (a.queue.items.length : Int) →
      (a.handleSyncError event).1.queue = a.queue ∧
      (a.handleSyncError event).2.2 = false) ∧
    (a.config.MaxRetries ≤ event.Attempts + 1 →
      (a.handleSyncError event).1 = a ∧
      (a.handleSyncError event).2.2 = true) := by
  by_cases hlt : event.Attempts + 1 < a.config.MaxRetries
  · refine ⟨?_, ?_, ?_, ?_⟩
    · simp [Agent.handleSyncError, hlt]
    · intro _ hroom
      have hnf : ¬ ((a.queue.items.length : Int) ≥ a.queue.maxSize) := by omega
      constructor
      · simp [Agent.handleSyncError, hlt, ChangeQueue.Push, hnf]
      · simp [Agent.handleSyncError, hlt]
    · intro _ hfull
      have hf : (a.queue.items.length : Int) ≥ a.queue.maxSize := hfull
      constructor
      · simp [Agent.handleSyncError, hlt, ChangeQueue.Push, hf]
      · simp [Agent.handleSyncError, hlt]
    · intro hge
      omega
  · refine ⟨?_, ?_, ?_, ?_⟩
    · simp [Agent.handleSyncError, hlt]
    · intro h _
      exact absurd h hlt
    · intro h _
      exact absurd h hlt
    · intro _
      constructor
      · simp [Agent.handleSyncError, hlt]
      · simp [Agent.handleSyncError, hlt]

/-- The event whose transmission failed, with no previous attempts. -/
def retryEvent : ChangeEvent := mkREv "ev-r" 0

/-- Filler occupying the agent's queue. -/
def fillerEvent : ChangeEvent := mkREv "filler" 0

/-- An agent (MaxRetries 5) whose capacity-10000 queue is full, as
after 10000 queued changes. -/
def fullAgent : Agent :=
  { config := { RegionID := "r", Mode := "push", BatchSize := 10
                BatchInterval := 0, RetryInterval := 0, MaxRetries := 5 }
    queue := { items := List.replicate 10000 fillerEvent, maxSize := 10000 } }

/-- The agent's full queue really is at capacity. -/
theorem fullAgent_queue_full :
    (fullAgent.queue.items.length : Int) ≥ fullAgent.queue.maxSize := by
  show ((List.replicate 10000 fillerEvent).length : Int) ≥ (10000 : Int)
  rw [List.length_replicate]
  norm_num

/-- C8 counterexample: a failed event with incremented Attempts below
MaxRetries is NOT re-enqueued when the agent's queue is full — the
queue is unchanged, the event is absent from it, and no drop report is
emitted (silent loss). -/
theorem c8_counterexample :
    retryEvent.Attempts + 1 < fullAgent.config.MaxRetries ∧
    (fullAgent.handleSyncError retryEvent).1.queue.items = fullAgent.queue.items ∧
    (fullAgent.handleSyncError retryEvent).2.1 ∉
      (fullAgent.handleSyncError retryEvent).1.queue.items ∧
    (fullAgent.handleSyncError retryEvent).2.2 = false := by
  have hpush : fullAgent.queue.Push
      ({ retryEvent with Attempts := retryEvent.Attempts + 1 }) =
      (some Err.ErrQueueFull, fullAgent.queue) := by
    unfold ChangeQueue.Push
    rw [if_pos fullAgent_queue_full]
  have hcond : ({ retryEvent with Attempts := retryEvent.Attempts + 1 } :
      ChangeEvent).Attempts < fullAgent.config.MaxRetries := by decide
  have hrun : fullAgent.handleSyncError retryEvent =
      (fullAgent, { retryEvent with Attempts := retryEvent.Attempts + 1 }, false) := by
    show (if ({ retryEvent with Attempts := retryEvent.Attempts + 1 } :
        ChangeEvent).Attempts < fullAgent.config.MaxRetries then
        ({ fullAgent with queue := (fullAgent.queue.Push
            { retryEvent with Attempts := retryEvent.Attempts + 1 }).2 },
         ({ retryEvent with Attempts := retryEvent.Attempts + 1 } : ChangeEvent), false)
      else (fullAgent, { retryEvent with Attempts := retryEvent.Attempts + 1 }, true)) =
      (fullAgent, { retryEvent with Attempts := retryEvent.Attempts + 1 }, false)
    rw [if_pos hcond, hpush]
  refine ⟨by decide, by rw [hrun], ?_, by rw [hrun]⟩
  rw [hrun]
  show ({ retryEvent with Attempts := retryEvent.Attempts + 1 } : ChangeEvent) ∉
    List.replicate 10000 fillerEvent
  intro hmem
  rw [List.mem_replicate] at hmem
  exact absurd hmem.2 (by decide)

/-- An agent with MaxRetries 5 and an empty capacity-10000 queue. -/
def roomAgent : Agent :=
  NewAgent { RegionID := "r", Mode := "push", BatchSize := 10
             BatchInterval := 0, RetryInterval := 0, MaxRetries := 5 }

/-- A failed event already at 4 attempts: the fifth failure hits
MaxRetries 5. -/
def dropEvent : ChangeEvent := mkREv "ev-d" 4

theorem c8_witness :
    (retryEvent.Attempts + 1 < roomAgent.config.MaxRetries ∧
     (roomAgent.queue.items.length : Int) < roomAgent.queue.maxSize ∧
     (roomAgent.handleSyncError retryEvent).1.queue.items =
       roomAgent.queue.items ++ [(roomAgent.handleSyncError retryEvent).2.1]) ∧
    (roomAgent.config.MaxRetries ≤ dropEvent.Attempts + 1 ∧
     (roomAgent.handleSyncError dropEvent).1 = roomAgent ∧
     (roomAgent.handleSyncError dropEvent).2.2 = true) ∧
    (retryEvent.Attempts + 1 < fullAgent.config.MaxRetries ∧
     fullAgent.queue.maxSize ≤ (fullAgent.queue.items.length : Int) ∧
     (fullAgent.handleSyncError retryEvent).1.queue = fullAgent.queue) :=
  ⟨⟨by decide, by decide,
    ((c8_retry_amended roomAgent retryEvent).2.1 (by decide) (by decide)).1⟩,
   ⟨by decide,
    ((c8_retry_amended roomAgent dropEvent).2.2.2 (by decide)).1,
    ((c8_retry_amended roomAgent dropEvent).2.2.2 (by decide)).2⟩,
   ⟨by decide, fullAgent_queue_full,
    ((c8_retry_amended fullAgent retryEvent).2.2.1 (by decide)
      fullAgent_queue_full).1⟩⟩

end RegionSync

/-- Go `time.Second` in nanoseconds. -/
def timeSecond : Int := 1000000000

/-- Go `time.Minute` in nanoseconds. -/
def timeMinute : Int := 60 * timeSecond

/-- The local `degradedThreshold := 1 * time.Minute` of `checkHealth`. -/
def degradedThreshold : Int := 1 * timeMinute

/-- The local `offlineThreshold := 5 * time.Minute` of `checkHealth`. -/
def offlineThreshold : Int := 5 * timeMinute

/-- RegionStatus from the registry package. The Go `LoadLevel` field is
`float64` and no claim depends on it; it is omitted. -/
structure RegionStatus where
  State : String
  SyncLag : Int
  LastCheckAt : Int
deriving DecidableEq, Repr

/-- Capacity from the registry package. -/
structure Capacity where
  TotalBytes : Int
  UsedBytes : Int
  FreeBytes : Int
deriving DecidableEq, Repr

/-- RegionInfo from the registry package. The Go `Location` field holds
`float64` coordinates and no claim depends on it; it is omitted. -/
structure RegionInfo where
  ID : String
  Name : String
  Endpoint : String
  Capacity : Capacity
  Status : RegionStatus
  JoinedAt : Int
  LastSeenAt : Int
deriving DecidableEq, Repr

/-- Registry state: its region map. -/
structure Registry where
  regions : List (String × RegionInfo)
deriving DecidableEq, Repr

/-- The body of the `checkHealth` loop for one region: past the
offline threshold force offline; past the degraded threshold demote a
healthy region to degraded; otherwise elapsed time changes nothing. -/
def checkHealthRegion (now : Int) (region : RegionInfo) : RegionInfo :=
  let elapsed := now - region.LastSeenAt
  if elapsed > offlineThreshold then
    if region.Status.State ≠ "offline" then
      { region with Status := { region.Status with State := "offline" } }
    else region
  else if elapsed > degradedThreshold then
    if region.Status.State = "healthy" then
      { region with Status := { region.Status with State := "degraded" } }
    else region
  else region

/-- Go `Registry.checkHealth`: apply the transition to every region. -/
def Registry.checkHealth (r : Registry) (now : Int) : Registry :=
  { r with regions := r.regions.map fun p => (p.1, checkHealthRegion now p.2) }

/-- Go `Registry.Heartbeat`: reset LastSeenAt and overwrite the status
verbatim (stamping LastCheckAt); unknown regions fail not-found. -/
def Registry.Heartbeat (r : Registry) (regionID : String) (status : RegionStatus)
    (now : Int) : Option Err × Registry :=
  match assocGet r.regions regionID with
  | none => (some .ErrNotFound, r)
  | some region =>
      let updated : RegionInfo :=
        { region with
            LastSeenAt := now
            Status := { status with LastCheckAt := now } }
      (none, { r with regions := assocInsert r.regions regionID updated })

theorem checkHealthRegion_offline (now : Int) (region : RegionInfo)
    (h : now - region.LastSeenAt > offlineThreshold) :
    (checkHealthRegion now region).Status.State = "offline" := by
  simp only [checkHealthRegion]
  rw [if_pos h]
  by_cases hs : region.Status.State ≠ "offline"
  · rw [if_pos hs]
  · rw [if_neg hs]
    push_neg at hs
    exact hs

theorem checkHealthRegion_degraded (now : Int) (region : RegionInfo)
    (h1 : now - region.LastSeenAt ≤ offlineThreshold)
    (h2 : now - region.LastSeenAt > degradedThreshold)
    (hs : region.Status.State = "healthy") :
    (checkHealthRegion now region).Status.State = "degraded" := by
  simp only [checkHealthRegion]
  rw [if_neg (not_lt.mpr h1), if_pos h2, if_pos hs]

theorem checkHealthRegion_unchanged (now : Int) (region : RegionInfo)
    (h1 : now - region.LastSeenAt ≤ offlineThreshold)
    (h2 : now - region.LastSeenAt ≤ degradedThreshold ∨
      region.Status.State ≠ "healthy") :
    checkHealthRegion now region = region := by
  simp only [checkHealthRegion]
  rw [if_neg (not_lt.mpr h1)]
  rcases h2 with h2 | h2
  · rw [if_neg (not_lt.mpr h2)]
  · by_cases hdeg : now - region.LastSeenAt > degradedThreshold
    · rw [if_pos hdeg, if_neg h2]
    · rw [if_neg hdeg]

/-- C9: one health-check pass maps every region through the elapsed
transition: past five minutes the state is offline regardless of the
prior state; between one and five minutes a healthy region becomes
degraded; in every other case nothing changes; in particular a healthy
region last seen 90 seconds ago reports degraded and one last seen 301
seconds ago reports offline. -/
theorem c9_health_state (reg : Registry) (now : Int) (region : RegionInfo) :
    ((reg.checkHealth now).regions =
      reg.regions.map fun p => (p.1, checkHealthRegion now p.2)) ∧
    (now - region.LastSeenAt > offlineThreshold →
      (checkHealthRegion now region).Status.State = "offline") ∧
    (now - region.LastSeenAt ≤ offlineThreshold →
      now - region.LastSeenAt > degradedThreshold →
      region.Status.State = "healthy" →
      (checkHealthRegion now region).Status.State = "degraded") ∧
    (now - region.LastSeenAt ≤ offlineThreshold →
      (now - region.LastSeenAt ≤ degradedThreshold ∨
        region.Status.State ≠ "healthy") →
      checkHealthRegion now region = region) ∧
    (region.Status.State = "healthy" →
      (checkHealthRegion (region.LastSeenAt + 90 * timeSecond) region).Status.State =
        "degraded") ∧
    ((checkHealthRegion (region.LastSeenAt + 301 * timeSecond) region).Status.State =
      "offline") := by
  refine ⟨rfl, checkHealthRegion_offline now region,
    checkHealthRegion_degraded now region,
    checkHealthRegion_unchanged now region, ?_, ?_⟩
  · intro hs
    refine checkHealthRegion_degraded _ region ?_ ?_ hs
    · simp only [offlineThreshold, timeMinute, timeSecond]
      omega
    · simp only [degradedThreshold, timeMinute, timeSecond]
      omega
  · refine checkHealthRegion_offline _ region ?_
    simp only [offlineThreshold, timeMinute, timeSecond]
    omega

/-- A healthy region whose LastSeenAt is time 0. -/
def regionH : RegionInfo :=
  { ID := "r1", Name := "", Endpoint := "", Capacity := { TotalBytes := 0, UsedBytes := 0, FreeBytes := 0 }
    Status := { State := "healthy", SyncLag := 0, LastCheckAt := 0 }
    JoinedAt := 0, LastSeenAt := 0 }

/-- Registry holding the healthy sample region. -/
def registry1 : Registry := { regions := [("r1", regionH)] }

theorem c9_witness :
    (301 * timeSecond - regionH.LastSeenAt > offlineThreshold ∧
     (checkHealthRegion (301 * timeSecond) regionH).Status.State = "offline") ∧
    (90 * timeSecond - regionH.LastSeenAt ≤ offlineThreshold ∧
     90 * timeSecond - regionH.LastSeenAt > degradedThreshold ∧
     regionH.Status.State = "healthy" ∧
     (checkHealthRegion (90 * timeSecond) regionH).Status.State = "degraded") ∧
    (30 * timeSecond - regionH.LastSeenAt ≤ degradedThreshold ∧
     checkHealthRegion (30 * timeSecond) regionH = regionH) :=
  ⟨⟨by decide, (c9_health_state registry1 (301 * timeSecond) regionH).2.1 (by decide)⟩,
   ⟨by decide, by decide, rfl,
    (c9_health_state registry1 (90 * timeSecond) regionH).2.2.1
      (by decide) (by decide) rfl⟩,
   ⟨by decide,
    (c9_health_state registry1 (30 * timeSecond) regionH).2.2.2.1
      (by decide) (Or.inl (by decide))⟩⟩
